import Mathlib

set_option linter.unusedVariables false

/-!
Shallow embedding of the etz multi-repository git worktree manager.

The embedding models the worktree orchestration engine
(`packages/core/src/commands/switch.ts`), the cleanup engine
(`commands/clean.ts`), the build process tracker
(`packages/core/src/commands/build.ts`) and the git operation adapter
(`packages/core/src/git/operations.ts`).

Filesystem and git interactions are modelled by an oracle environment
(`GitEnv`): each observation the TypeScript code makes (existsSync,
branch-existence checks, whether a git subcommand throws) is a field of
the environment, and every side-effecting call the code issues is
recorded in an explicit effect trace (`Eff`).  Node's POSIX `path`
functions are embedded directly (`pathNormalize`, `pathJoin`,
`pathDirname`), as are JavaScript's string-falsiness idioms (`a || b`).
-/

namespace Etz

/-- Status values of `SwitchResult` (types.ts). -/
inductive SwitchStatus where
  | already_exists
  | already_in_use
  | dry_run
  | created_new
  | added_local
  | added_remote
  | error
  | skipped
  deriving Repr, DecidableEq

/-- Status values of `CleanResult` (types.ts). -/
inductive CleanStatus where
  | not_found
  | not_worktree
  | dry_run
  | deleted
  | error
  deriving Repr, DecidableEq

/-- `SwitchResult` from types.ts. -/
structure SwitchResult where
  repoName : String
  success : Bool
  message : String
  status : SwitchStatus
  deriving Repr, DecidableEq

/-- `CleanResult` from types.ts. -/
structure CleanResult where
  repoName : String
  success : Bool
  message : String
  status : CleanStatus
  deriving Repr, DecidableEq

/-- `RepoConfig` from types.ts. -/
structure RepoConfig where
  name : String
  base_path : String
  deriving Repr, DecidableEq

/-- `EtzConfig` from types.ts. -/
structure EtzConfig where
  base_branch : String
  worktrees_dir : String
  repos : List RepoConfig
  deriving Repr, DecidableEq

/-- `SwitchOptions` from types.ts.  Optional `Record` fields are
association lists; optional strings are `Option String`. -/
structure SwitchOptions where
  label : Option String
  branchMap : List (String × String)
  defaultBranch : Option String
  baseBranchMap : List (String × String)
  dryRun : Bool
  repo : Option String
  deriving Repr, DecidableEq

/-- `CleanOptions` from types.ts. -/
structure CleanOptions where
  label : String
  repo : Option String
  force : Bool
  dryRun : Bool
  deleteBranches : Bool
  deriving Repr, DecidableEq

/-- Whether `pat` is a leading segment of `xs` (structurally recursive
prefix test, kernel-evaluable). -/
def leadsWith : List Char → List Char → Bool
  | [], _ => true
  | _ :: _, [] => false
  | a :: as, b :: bs => if a = b then leadsWith as bs else false

/-- Whether `pat` occurs contiguously inside `xs`. -/
def containsSub (pat : List Char) : List Char → Bool
  | [] => leadsWith pat []
  | c :: rest => if leadsWith pat (c :: rest) then true else containsSub pat rest

/-- JavaScript `s.includes(sub)`. -/
def jsIncludes (s sub : String) : Bool := containsSub sub.data s.data

/-- JavaScript / Node `s.startsWith(pat)`. -/
def strStartsWith (s pat : String) : Bool := leadsWith pat.data s.data

/-- JavaScript / Node `s.endsWith(pat)`. -/
def strEndsWith (s pat : String) : Bool := leadsWith pat.data.reverse s.data.reverse

/-- Whitespace trimming of `String.trim` / JavaScript `trim()`. -/
def trimChars (cs : List Char) : List Char :=
  ((cs.dropWhile Char.isWhitespace).reverse.dropWhile Char.isWhitespace).reverse

/-- JavaScript `s.trim()`. -/
def jsTrim (s : String) : String := String.mk (trimChars s.data)

/-- Split a character list on a separator character; always returns at
least one (possibly empty) segment. -/
def splitChar (c : Char) : List Char → List (List Char)
  | [] => [[]]
  | x :: xs =>
    match splitChar c xs with
    | [] => [[]]
    | h :: t => if x = c then [] :: h :: t else (x :: h) :: t

/-- Join character-list segments with a separator list. -/
def joinWith (sep : List Char) : List (List Char) → List Char
  | [] => []
  | [s] => s
  | s :: rest => s ++ sep ++ joinWith sep rest

/-- Node `path.isAbsolute` in its POSIX form. -/
def isAbsolutePath (p : String) : Bool := leadsWith ['/'] p.data

/-- JavaScript string truthiness: an optional string is truthy iff it is
present and non-empty.  Models `x ? ...` and the left side of `x || y`. -/
def jsTruthy : Option String → Option String
  | some s => if s.data.isEmpty then none else some s
  | none => none

/-- JavaScript `a || b` on optional strings. -/
def jsOrStr (a b : Option String) : Option String :=
  match jsTruthy a with
  | some s => some s
  | none => b

/-- JavaScript `a || b` on plain strings (empty string is falsy). -/
def jsOrS (a b : String) : String := if a.data.isEmpty then b else a

/-- Lookup in a JavaScript `Record<string, string>` modelled as an
association list. -/
def assocLookup (m : List (String × String)) (k : String) : Option String :=
  (m.find? (fun p => decide (p.1 = k))).map (fun p => p.2)

/-- Segment resolution loop of Node's POSIX `path.normalize`: `.` and
empty segments are dropped, `..` pops a segment, and above-root `..`
segments are kept only for relative paths.  The stack is reversed. -/
def normStack (allowAboveRoot : Bool) : List (List Char) → List (List Char) → List (List Char)
  | stack, [] => stack.reverse
  | stack, seg :: rest =>
    if seg = [] || seg = ['.'] then
      normStack allowAboveRoot stack rest
    else if seg = ['.', '.'] then
      match stack with
      | [] => normStack allowAboveRoot (if allowAboveRoot then [['.', '.']] else []) rest
      | top :: stk =>
        if top = ['.', '.'] then normStack allowAboveRoot (['.', '.'] :: top :: stk) rest
        else normStack allowAboveRoot stk rest
    else
      normStack allowAboveRoot (seg :: stack) rest

/-- Node `path.normalize`, POSIX form. -/
def pathNormalize (p : String) : String :=
  if p.data.isEmpty then "."
  else
    let isAbs := leadsWith ['/'] p.data
    let trailing := leadsWith ['/'] p.data.reverse
    let core := joinWith ['/'] (normStack (!isAbs) [] (splitChar '/' p.data))
    if core.isEmpty then
      if isAbs then "/" else if trailing then "./" else "."
    else
      let core2 := if trailing then core ++ ['/'] else core
      String.mk (if isAbs then '/' :: core2 else core2)

/-- Node `path.join`, POSIX form: non-empty parts joined with `/`, then
normalized. -/
def pathJoinList (parts : List String) : String :=
  let kept := parts.filter (fun s => !s.data.isEmpty)
  if kept.isEmpty then "."
  else pathNormalize (String.mk (joinWith ['/'] (kept.map String.data)))

/-- Node `path.join` with two arguments. -/
def pathJoin (a b : String) : String := pathJoinList [a, b]

/-- Node `path.dirname`, POSIX form. -/
def pathDirname (p : String) : String :=
  if p.data.isEmpty then "."
  else
    let hasRoot := leadsWith ['/'] p.data
    let rev := p.data.reverse
    let rev1 := rev.dropWhile (fun c => c = '/')
    let rev2 := rev1.dropWhile (fun c => c ≠ '/')
    let res := (rev2.drop 1).reverse
    if res.isEmpty then (if hasRoot then "/" else ".") else String.mk res

/-- Wrap a string in single quotes. -/
def sq (s : String) : String := "\x27" ++ s ++ "\x27"

/-- The `message` of a `GitOperationError` (types.ts). -/
def gitOpErrorMessage (operation details : String) : String :=
  "Git operation " ++ sq operation ++ " failed: " ++ details

/-- `validateLabel` from switch.ts: rejects labels containing `..`, `/`
or `\`, absolute paths, and empty/whitespace-only labels.  Returns the
thrown error message, or `none` when the label is accepted. -/
def validateLabel (label : String) : Option String :=
  if jsIncludes label ".." || jsIncludes label "/" || jsIncludes label "\\" then
    some "Invalid label: cannot contain path separators or traversal sequences"
  else if isAbsolutePath label then
    some "Invalid label: cannot be an absolute path"
  else if label.data.isEmpty || (trimChars label.data).isEmpty then
    some "Invalid label: cannot be empty"
  else
    none

/-- The shell metacharacter class `[;&|` + backtick + `$()<>\]` used by
`validateBranchName`. -/
def hasShellMeta (branch : String) : Bool :=
  branch.data.any (fun c =>
    c = ';' || c = '&' || c = '|' || c = Char.ofNat 96 || c = '$' ||
    c = '(' || c = ')' || c = '<' || c = '>' || c = '\\')

/-- `validateBranchName` from switch.ts. -/
def validateBranchName (branch : String) : Option String :=
  if branch.data.isEmpty || (trimChars branch.data).isEmpty then
    some "Branch name cannot be empty"
  else if hasShellMeta branch then
    some "Invalid branch name: contains shell metacharacters"
  else if strStartsWith branch "-" then
    some "Invalid branch name: cannot start with -"
  else
    none

/-- `validateNoPathTraversal` from clean.ts (same checks as
`validateLabel`, parameterised message). -/
def validateNoPathTraversal (userInput paramName : String) : Option String :=
  if jsIncludes userInput ".." || jsIncludes userInput "/" || jsIncludes userInput "\\" then
    some ("Invalid " ++ paramName ++ ": cannot contain path separators or traversal sequences")
  else if isAbsolutePath userInput then
    some ("Invalid " ++ paramName ++ ": cannot be an absolute path")
  else if userInput.data.isEmpty || (trimChars userInput.data).isEmpty then
    some ("Invalid " ++ paramName ++ ": cannot be empty")
  else
    none

/-- One side-effecting call issued by the engines, recorded in order.
Git subcommand invocations and filesystem mutations are distinguished
from the pure observations kept in the oracle environment. -/
inductive Eff where
  | listWorktreesOp (repo : String)
  | fetchOp (repo : String)
  | localBranchCheck (repo branch : String)
  | remoteBranchCheck (repo branch : String)
  | createBranchOp (repo branch startPoint : String)
  | addWorktreeOp (repo wtPath branch : String) (createB : Bool)
  | addWorktreeTrackingOp (repo wtPath branch remoteRef : String)
  | unsetUpstreamOp (wtPath : String)
  | mkdirRecOp (p : String)
  | removeWorktreeOp (repo wtPath : String) (force : Bool)
  | rmRecursiveOp (p : String)
  | deleteBranchOp (repo branch : String) (force : Bool)
  | currentBranchOp (wtPath : String)
  | rmDerivedDataOp (p : String)
  | killBuildsOp (label : String)
  deriving Repr, DecidableEq

/-- Whether an effect is an invocation of the git binary. -/
def Eff.isGitOp : Eff → Bool
  | .listWorktreesOp _ => true
  | .fetchOp _ => true
  | .localBranchCheck _ _ => true
  | .remoteBranchCheck _ _ => true
  | .createBranchOp _ _ _ => true
  | .addWorktreeOp _ _ _ _ => true
  | .addWorktreeTrackingOp _ _ _ _ => true
  | .unsetUpstreamOp _ => true
  | .removeWorktreeOp _ _ _ => true
  | .deleteBranchOp _ _ _ => true
  | .currentBranchOp _ => true
  | _ => false

/-- Whether an effect mutates the filesystem outside git. -/
def Eff.isFsMutation : Eff → Bool
  | .mkdirRecOp _ => true
  | .rmRecursiveOp _ => true
  | .rmDerivedDataOp _ => true
  | _ => false

/-- Oracle environment for one engine call: the answers the filesystem
and the git binary give to each observation the TypeScript code makes.
`fetchErr`, `createBranchErr`, `addWorktreeErr`,
`addWorktreeTrackingErr`, `removeWorktreeErr` and `deleteBranchErr`
yield the `details` of the `GitOperationError` the adapter throws, or
`none` when the subcommand succeeds.  `pathExists` models `fs.existsSync`
at the program points before any mutation; `pathExists2` models the
re-checks made after a mutating call may have removed the path. -/
structure GitEnv where
  pathExists : String → Bool
  pathExists2 : String → Bool
  findWorktreeByBranch : String → String → Option String
  fetchErr : String → Option String
  localBranchExists : String → String → Bool
  remoteBranchExists : String → String → Bool
  createBranchErr : String → String → String → Option String
  addWorktreeErr : String → String → String → Option String
  addWorktreeTrackingErr : String → String → String → String → Option String
  removeWorktreeErr : String → String → Bool → Option String
  deleteBranchErr : String → String → Bool → Option String
  currentBranchRes : String → Except String String
  dirEntries : String → List String
  isIOSProjectAt : String → Bool
  derivedDataPathFor : String → Option String

/-- `ensureWorktree` from switch.ts: per-repository decision between
`already_exists`, `already_in_use`, `dry_run`, `created_new`,
`added_local`, `added_remote` and `error`, together with the ordered
trace of side-effecting calls it issues. -/
def ensureWorktree (env : GitEnv) (repoName baseRepoPath worktreePath branch baseBranch : String)
    (dryRun : Bool) : SwitchResult × List Eff :=
  if env.pathExists worktreePath then
    (⟨repoName, true, "Worktree already exists at " ++ worktreePath, .already_exists⟩, [])
  else
    match env.findWorktreeByBranch baseRepoPath branch with
    | some existingPath =>
      (⟨repoName, false,
        "Branch " ++ sq branch ++ " is already checked out at " ++ existingPath,
        .already_in_use⟩, [.listWorktreesOp baseRepoPath])
    | none =>
      if dryRun then
        (⟨repoName, true,
          "Would create worktree for branch " ++ sq branch ++ " at " ++ worktreePath,
          .dry_run⟩, [.listWorktreesOp baseRepoPath])
      else
        let pre : List Eff := [.listWorktreesOp baseRepoPath, .fetchOp baseRepoPath]
        match env.fetchErr baseRepoPath with
        | some details =>
          (⟨repoName, false,
            "Failed to create worktree: " ++ gitOpErrorMessage "fetch" details,
            .error⟩, pre)
        | none =>
          let branchExistsLocally := env.localBranchExists baseRepoPath branch
          let branchExistsRemotely := env.remoteBranchExists baseRepoPath branch
          let checks := pre ++
            [Eff.localBranchCheck baseRepoPath branch, Eff.remoteBranchCheck baseRepoPath branch]
          if !branchExistsLocally && !branchExistsRemotely then
            match env.createBranchErr baseRepoPath branch ("origin/" ++ baseBranch) with
            | some details =>
              (⟨repoName, false,
                "Failed to create worktree: " ++ gitOpErrorMessage "create-branch" details,
                .error⟩,
               checks ++ [.createBranchOp baseRepoPath branch ("origin/" ++ baseBranch)])
            | none =>
              match env.addWorktreeErr baseRepoPath worktreePath branch with
              | some details =>
                (⟨repoName, false,
                  "Failed to create worktree: " ++ gitOpErrorMessage "add-worktree" details,
                  .error⟩,
                 checks ++ [.createBranchOp baseRepoPath branch ("origin/" ++ baseBranch),
                            .addWorktreeOp baseRepoPath worktreePath branch false])
              | none =>
                (⟨repoName, true,
                  "Created new branch " ++ sq branch ++ " from origin/" ++ baseBranch ++
                    " and added worktree",
                  .created_new⟩,
                 checks ++ [.createBranchOp baseRepoPath branch ("origin/" ++ baseBranch),
                            .addWorktreeOp baseRepoPath worktreePath branch false,
                            .unsetUpstreamOp worktreePath])
          else if branchExistsLocally then
            match env.addWorktreeErr baseRepoPath worktreePath branch with
            | some details =>
              (⟨repoName, false,
                "Failed to create worktree: " ++ gitOpErrorMessage "add-worktree" details,
                .error⟩,
               checks ++ [.addWorktreeOp baseRepoPath worktreePath branch false])
            | none =>
              (⟨repoName, true,
                "Added worktree for existing local branch " ++ sq branch,
                .added_local⟩,
               checks ++ [.addWorktreeOp baseRepoPath worktreePath branch false,
                          .unsetUpstreamOp worktreePath])
          else if branchExistsRemotely then
            match env.addWorktreeTrackingErr baseRepoPath worktreePath branch ("origin/" ++ branch) with
            | some details =>
              (⟨repoName, false,
                "Failed to create worktree: " ++ gitOpErrorMessage "add-worktree-tracking" details,
                .error⟩,
               checks ++ [.addWorktreeTrackingOp baseRepoPath worktreePath branch ("origin/" ++ branch)])
            | none =>
              (⟨repoName, true,
                "Added worktree and tracking remote branch " ++ sq ("origin/" ++ branch),
                .added_remote⟩,
               checks ++ [.addWorktreeTrackingOp baseRepoPath worktreePath branch ("origin/" ++ branch)])
          else
            (⟨repoName, false, "Unexpected state", .error⟩, checks)

/-- `branchMap[repo.name] || options.default`, then JavaScript `if
(!branch)` truthiness: the branch the loop body of `switchToWorktree`
settles on for a repository, if any. -/
def resolvedBranch (opts : SwitchOptions) (repoName : String) : Option String :=
  jsTruthy (jsOrStr (assocLookup opts.branchMap repoName) opts.defaultBranch)

/-- `const labelFolder = options.label || branch`. -/
def resolvedLabelFolder (opts : SwitchOptions) (branch : String) : String :=
  match jsTruthy opts.label with
  | some l => l
  | none => branch

/-- `path.join(config.worktrees_dir, labelFolder, repo.name)`. -/
def worktreePathFor (cfg : EtzConfig) (opts : SwitchOptions) (repoName branch : String) : String :=
  pathJoinList [cfg.worktrees_dir, resolvedLabelFolder opts branch, repoName]

/-- Base-branch resolution of switch.ts line 241:
`options.baseBranchMap?.[repo.name] || config.base_branch || 'master'`. -/
def resolveBaseBranch (opts : SwitchOptions) (cfg : EtzConfig) (repoName : String) : String :=
  match jsTruthy (assocLookup opts.baseBranchMap repoName) with
  | some b => b
  | none => jsOrS cfg.base_branch "master"

/-- `if (options.repo && repo.name !== options.repo) continue`. -/
def filteredOut (opts : SwitchOptions) (repo : RepoConfig) : Bool :=
  match jsTruthy opts.repo with
  | some r => decide (r ≠ repo.name)
  | none => false

/-- The body of the per-repository loop of `switchToWorktree` for one
repository that passed the `options.repo` filter. -/
def repoStep (cfg : EtzConfig) (opts : SwitchOptions) (env : GitEnv) (repo : RepoConfig) :
    SwitchResult × List Eff :=
  match resolvedBranch opts repo.name with
  | none => (⟨repo.name, false, "No branch specified", .skipped⟩, [])
  | some branch =>
    match validateBranchName branch with
    | some msg => (⟨repo.name, false, msg, .error⟩, [])
    | none =>
      match validateLabel (resolvedLabelFolder opts branch) with
      | some msg => (⟨repo.name, false, msg, .error⟩, [])
      | none =>
        let worktreePath := worktreePathFor cfg opts repo.name branch
        let parentDir := pathDirname worktreePath
        let mkEffs : List Eff :=
          if env.pathExists parentDir then [] else [.mkdirRecOp parentDir]
        let baseBranch := resolveBaseBranch opts cfg repo.name
        let r := ensureWorktree env repo.name repo.base_path worktreePath branch baseBranch opts.dryRun
        (r.1, mkEffs ++ r.2)

/-- One iteration of the repository loop: `none` when the repository is
skipped by the `options.repo` filter. -/
def processRepo (cfg : EtzConfig) (opts : SwitchOptions) (env : GitEnv) (repo : RepoConfig) :
    Option (SwitchResult × List Eff) :=
  if filteredOut opts repo then none else some (repoStep cfg opts env repo)

/-- The repository loop of `switchToWorktree`, accumulating results in
configuration order. -/
def runRepos (cfg : EtzConfig) (opts : SwitchOptions) (env : GitEnv) :
    List RepoConfig → List SwitchResult × List Eff
  | [] => ([], [])
  | repo :: rest =>
    let tail := runRepos cfg opts env rest
    match processRepo cfg opts env repo with
    | none => tail
    | some (r, effs) => (r :: tail.1, effs ++ tail.2)

/-- `switchToWorktree` from switch.ts: label validation, then the
per-repository loop. -/
def switchToWorktree (cfg : EtzConfig) (env : GitEnv) (opts : SwitchOptions) :
    List SwitchResult × List Eff :=
  match jsTruthy opts.label with
  | some lab =>
    match validateLabel lab with
    | some msg => ([⟨"", false, msg, .error⟩], [])
    | none => runRepos cfg opts env cfg.repos
  | none => runRepos cfg opts env cfg.repos

/-- `worktreeExists` from operations.ts: the path exists and contains a
`.git` marker. -/
def worktreeExists (env : GitEnv) (worktreePath : String) : Bool :=
  env.pathExists worktreePath && env.pathExists (pathJoin worktreePath ".git")

/-- `cleanIOSDerivedData` from clean.ts: the DerivedData directory the
name-prefix scan finds for the worktree's Xcode project (abstracted by
the `derivedDataPathFor` oracle), deleted unless `dryRun`. -/
def cleanIOSDerivedData (env : GitEnv) (worktreePath : String) (dryRun : Bool) :
    Option String × List Eff :=
  match env.derivedDataPathFor worktreePath with
  | none => (none, [])
  | some p => (some p, if dryRun then [] else [.rmDerivedDataOp p])

/-- Tail of `cleanWorktree` after the `removeWorktree` step: DerivedData
cleanup, directory deletion, optional local-branch deletion. -/
def cleanWorktreeFinish (env : GitEnv) (repoName baseRepoPath worktreePath : String)
    (deleteBranches : Bool) (branchName : Option String) (acc : List Eff) :
    CleanResult × List Eff :=
  let dd :=
    if env.isIOSProjectAt worktreePath then cleanIOSDerivedData env worktreePath false
    else (none, [])
  let acc1 := acc ++ dd.2
  if env.pathExists2 worktreePath then
    let acc2 := acc1 ++ [Eff.rmRecursiveOp worktreePath]
    let msg0 := "Successfully deleted: " ++ worktreePath
    let msg1 :=
      match dd.1 with
      | some p => msg0 ++ "\nAlso deleted DerivedData: " ++ p
      | none => msg0
    match branchName with
    | some b =>
      if deleteBranches && !b.data.isEmpty then
        match env.deleteBranchErr baseRepoPath b true with
        | none =>
          (⟨repoName, true, msg1 ++ "\nAlso deleted local branch: " ++ b, .deleted⟩,
           acc2 ++ [Eff.deleteBranchOp baseRepoPath b true])
        | some details =>
          (⟨repoName, true,
            msg1 ++ "\nFailed to delete local branch " ++ sq b ++ ": " ++
              gitOpErrorMessage "delete-branch" details,
            .deleted⟩,
           acc2 ++ [Eff.deleteBranchOp baseRepoPath b true])
      else (⟨repoName, true, msg1, .deleted⟩, acc2)
    | none => (⟨repoName, true, msg1, .deleted⟩, acc2)
  else
    (⟨repoName, true, "Worktree removed (folder already deleted)", .deleted⟩, acc1)

/-- `cleanWorktree` from clean.ts: per-repository teardown of one
worktree directory.  The `removeWorktree` call is issued with the
constant `true` force flag, exactly as in the source (line 168). -/
def cleanWorktree (env : GitEnv) (repoName baseRepoPath worktreePath : String)
    (force dryRun deleteBranches : Bool) : CleanResult × List Eff :=
  if !(env.pathExists worktreePath) then
    (⟨repoName, true, "Path not found (already deleted): " ++ worktreePath, .not_found⟩, [])
  else
    let isWorktree := worktreeExists env worktreePath
    if !isWorktree && !force then
      (⟨repoName, false, "Not a Git worktree (use force to delete)", .not_worktree⟩, [])
    else if dryRun then
      let msg0 := "Would delete: " ++ worktreePath
      let msg :=
        if env.isIOSProjectAt worktreePath then
          match (cleanIOSDerivedData env worktreePath true).1 with
          | some p => msg0 ++ "\nWould also delete DerivedData: " ++ p
          | none => msg0
        else msg0
      (⟨repoName, true, msg, .dry_run⟩, [])
    else
      let bp : Option String × List Eff :=
        if deleteBranches && isWorktree then
          match env.currentBranchRes worktreePath with
          | .ok b => (some b, [Eff.currentBranchOp worktreePath])
          | .error _ => (none, [Eff.currentBranchOp worktreePath])
        else (none, [])
      if isWorktree then
        match env.removeWorktreeErr baseRepoPath worktreePath true with
        | some details =>
          if !force then
            (⟨repoName, false,
              "Failed to remove Git worktree: " ++ gitOpErrorMessage "remove-worktree" details,
              .error⟩,
             bp.2 ++ [Eff.removeWorktreeOp baseRepoPath worktreePath true])
          else
            cleanWorktreeFinish env repoName baseRepoPath worktreePath deleteBranches bp.1
              (bp.2 ++ [Eff.removeWorktreeOp baseRepoPath worktreePath true])
        | none =>
          cleanWorktreeFinish env repoName baseRepoPath worktreePath deleteBranches bp.1
            (bp.2 ++ [Eff.removeWorktreeOp baseRepoPath worktreePath true])
      else
        cleanWorktreeFinish env repoName baseRepoPath worktreePath deleteBranches bp.1 bp.2

/-- The per-repository loop of `clean`, in configuration order. -/
def cleanRepos (env : GitEnv) (labelFolder : String) (force dryRun deleteBranches : Bool) :
    List RepoConfig → List CleanResult × List Eff
  | [] => ([], [])
  | repo :: rest =>
    let head := cleanWorktree env repo.name repo.base_path (pathJoin labelFolder repo.name)
      force dryRun deleteBranches
    let tail := cleanRepos env labelFolder force dryRun deleteBranches rest
    (head.1 :: tail.1, head.2 ++ tail.2)

/-- `clean` from clean.ts: label validation, build-kill, the normalized
descendant check against the worktree root, the label-folder existence
check, the per-repository loop, and the empty-label-folder removal. -/
def clean (cfg : EtzConfig) (env : GitEnv) (opts : CleanOptions) :
    List CleanResult × List Eff :=
  match validateNoPathTraversal opts.label "label" with
  | some msg => ([⟨"", false, msg, .error⟩], [])
  | none =>
    let killEffs : List Eff := [Eff.killBuildsOp opts.label]
    let labelFolder := pathJoin cfg.worktrees_dir opts.label
    let normalizedLabelFolder := pathNormalize labelFolder
    let normalizedWorktreesDir := pathNormalize cfg.worktrees_dir
    if !(strStartsWith normalizedLabelFolder (normalizedWorktreesDir ++ "/")) then
      ([⟨"", false, "Security error: path traversal detected", .error⟩], killEffs)
    else if !(env.pathExists labelFolder) then
      ([⟨"", false, "No worktree directory found at " ++ labelFolder, .not_found⟩], killEffs)
    else
      let reposToClean :=
        match jsTruthy opts.repo with
        | some rn => cfg.repos.filter (fun r => decide (r.name = rn))
        | none => cfg.repos
      let main := cleanRepos env labelFolder opts.force opts.dryRun opts.deleteBranches reposToClean
      let effs := killEffs ++ main.2
      if !opts.dryRun && env.pathExists2 labelFolder then
        let visibleEntries := (env.dirEntries labelFolder).filter (fun e => !(strStartsWith e "."))
        if visibleEntries.isEmpty then
          (main.1 ++ [⟨"", true, "Deleted empty label folder: " ++ labelFolder, .deleted⟩],
           effs ++ [Eff.rmRecursiveOp labelFolder])
        else (main.1, effs)
      else (main.1, effs)

/-- `ActiveBuild` from build.ts, restricted to the registry-visible
fields (the process handle and start time are external resources). -/
structure ActiveBuild where
  label : String
  btype : String
  outputBuffer : List String
  deriving Repr, DecidableEq

/-- The module-level `activeBuilds` map of build.ts: keys in insertion
order. -/
abbrev BuildRegistry := List (String × ActiveBuild)

/-- `getBuildKey` from build.ts. -/
def getBuildKey (label btype : String) : String := label ++ ":" ++ btype

/-- `activeBuilds.has(key)`. -/
def regHas (reg : BuildRegistry) (key : String) : Bool :=
  reg.any (fun p => decide (p.1 = key))

/-- `activeBuilds.get(key)`. -/
def regGet (reg : BuildRegistry) (key : String) : Option ActiveBuild :=
  (reg.find? (fun p => decide (p.1 = key))).map (fun p => p.2)

/-- `activeBuilds.set(key, b)`: replace in place when present, append
otherwise (JavaScript `Map` insertion-order semantics). -/
def regSet (reg : BuildRegistry) (key : String) (b : ActiveBuild) : BuildRegistry :=
  if regHas reg key then reg.map (fun p => if p.1 = key then (key, b) else p)
  else reg ++ [(key, b)]

/-- `activeBuilds.delete(key)`. -/
def regDelete (reg : BuildRegistry) (key : String) : BuildRegistry :=
  reg.filter (fun p => decide (p.1 ≠ key))

/-- `MAX_OUTPUT_BUFFER_SIZE` from build.ts. -/
def MAX_OUTPUT_BUFFER_SIZE : Nat := 500

/-- `text.trim().split('\n').filter(line => line.length > 0)`. -/
def chunkLines (text : String) : List String :=
  ((splitChar '\n' (trimChars text.data)).filter (fun l => !l.isEmpty)).map String.mk

/-- The buffer update of the stdout/stderr data handlers:
`push(...lines)` then `slice(-MAX_OUTPUT_BUFFER_SIZE)` when over the
bound. -/
def appendToBuffer (buf lines : List String) : List String :=
  let b := buf ++ lines
  if MAX_OUTPUT_BUFFER_SIZE < b.length then b.drop (b.length - MAX_OUTPUT_BUFFER_SIZE) else b

/-- The synchronous admission prefix of `runBuildProcess`: label
validation, duplicate-key rejection, registration of the fresh
`ActiveBuild` with an empty output buffer.  The error string is the
`error` field of the early-return result. -/
def runBuildStart (reg : BuildRegistry) (label btype : String) :
    Except String BuildRegistry :=
  match validateLabel label with
  | some msg => .error msg
  | none =>
    let key := getBuildKey label btype
    if regHas reg key then .error (btype ++ " already in progress")
    else .ok (regSet reg key ⟨label, btype, []⟩)

/-- The stdout/stderr `data` handler's registry update for one chunk. -/
def onBuildData (reg : BuildRegistry) (key text : String) : BuildRegistry :=
  match regGet reg key with
  | none => reg
  | some b => regSet reg key ⟨b.label, b.btype, appendToBuffer b.outputBuffer (chunkLines text)⟩

/-- The `close` handler: `activeBuilds.delete(buildKey)`. -/
def onBuildClose (reg : BuildRegistry) (key : String) : BuildRegistry := regDelete reg key

/-- `killBuild` from build.ts: kills the process (external) and removes
the registry entry; returns whether a build was found. -/
def killBuild (reg : BuildRegistry) (label btype : String) : BuildRegistry × Bool :=
  match validateLabel label with
  | some _ => (reg, false)
  | none =>
    let key := getBuildKey label btype
    if regHas reg key then (regDelete reg key, true) else (reg, false)

/-- `getBuildOutput` from build.ts. -/
def getBuildOutput (reg : BuildRegistry) (label : String) (btype : Option String) :
    List String :=
  match validateLabel label with
  | some _ => []
  | none =>
    match btype with
    | some t =>
      match regGet reg (getBuildKey label t) with
      | some b => b.outputBuffer
      | none => []
    | none =>
      match reg.find? (fun p => strStartsWith p.1 (label ++ ":")) with
      | some p => p.2.outputBuffer
      | none => []

/-- `isBuildInProgress` from build.ts. -/
def isBuildInProgress (reg : BuildRegistry) (label : String) (btype : Option String) : Bool :=
  match validateLabel label with
  | some _ => false
  | none =>
    match btype with
    | some t => regHas reg (getBuildKey label t)
    | none => reg.any (fun p => strStartsWith p.1 (label ++ ":"))

/-- Registry-affecting events in the life of the tracker: a build
request, a stdout/stderr chunk, subprocess exit, forced kill. -/
inductive BuildEv where
  | start (label btype : String)
  | chunk (label btype text : String)
  | close (label btype : String)
  | kill (label btype : String)
  deriving Repr, DecidableEq

/-- How one event transforms the registry (a rejected start leaves it
unchanged — there is no queue). -/
def buildStep (reg : BuildRegistry) (ev : BuildEv) : BuildRegistry :=
  match ev with
  | .start l t =>
    match runBuildStart reg l t with
    | .ok reg2 => reg2
    | .error _ => reg
  | .chunk l t text => onBuildData reg (getBuildKey l t) text
  | .close l t => onBuildClose reg (getBuildKey l t)
  | .kill l t => (killBuild reg l t).1

/-- The registry after a sequence of events starting from the empty
module-level map. -/
def runBuildEvents (evs : List BuildEv) : BuildRegistry := evs.foldl buildStep []

/-- The last `n` elements of a list (the "most recent" lines). -/
def lastN (n : Nat) (xs : List String) : List String := xs.drop (xs.length - n)

/-- Keys of the active-build registry, in insertion order. -/
def regKeys (reg : BuildRegistry) : List String := reg.map (fun p => p.1)

/-- Every buffered output in the registry respects the 500-line bound. -/
def BufBound (reg : BuildRegistry) : Prop :=
  ∀ p ∈ reg, p.2.outputBuffer.length ≤ MAX_OUTPUT_BUFFER_SIZE

/-- The label shapes the validation claim quantifies over: empty,
containing `..`, `/` or `\`, or an absolute path. -/
def labelViolation (label : String) : Bool :=
  label.data.isEmpty || jsIncludes label ".." || jsIncludes label "/" ||
    jsIncludes label "\\" || isAbsolutePath label

/-- Oracle in which no path exists, no branch exists anywhere, and every
git subcommand succeeds. -/
def envNone : GitEnv where
  pathExists := fun _ => false
  pathExists2 := fun _ => false
  findWorktreeByBranch := fun _ _ => none
  fetchErr := fun _ => none
  localBranchExists := fun _ _ => false
  remoteBranchExists := fun _ _ => false
  createBranchErr := fun _ _ _ => none
  addWorktreeErr := fun _ _ _ => none
  addWorktreeTrackingErr := fun _ _ _ _ => none
  removeWorktreeErr := fun _ _ _ => none
  deleteBranchErr := fun _ _ _ => none
  currentBranchRes := fun _ => .ok "feat"
  dirEntries := fun _ => []
  isIOSProjectAt := fun _ => false
  derivedDataPathFor := fun _ => none

/-- Oracle in which every path exists (so every worktree directory is a
valid git worktree) and every git subcommand succeeds. -/
def envAll : GitEnv :=
  { envNone with pathExists := fun _ => true, pathExists2 := fun _ => true }

/-- `envAll` but `git worktree remove` fails. -/
def envRemoveFail : GitEnv :=
  { envAll with removeWorktreeErr := fun _ _ _ => some "locked working tree" }

/-- `envNone` but `git fetch` fails. -/
def envFetchFail : GitEnv :=
  { envNone with fetchErr := fun _ => some "network down" }

/-- One-repository configuration used by the concrete witnesses. -/
def cfg1 : EtzConfig := ⟨"main", "/wt", [⟨"app", "/r/app"⟩]⟩

/-- Switch options with an explicit empty label string. -/
def optsEmptyLabel : SwitchOptions := ⟨some "", [("app", "feat")], none, [], false, none⟩

/-- Switch options with label `feat` and branch `feat` for repo `app`. -/
def optsFeat : SwitchOptions := ⟨some "feat", [("app", "feat")], none, [], false, none⟩

/-- Clean options for the label `.`, which passes the character
validation but normalizes onto the worktree root itself. -/
def cleanOptsDot : CleanOptions := ⟨".", none, false, false, false⟩

/-- Clean options for the label `feat`. -/
def cleanOptsFeat : CleanOptions := ⟨"feat", none, false, false, false⟩

/-- A registry with one active android build for label `feat`. -/
def regFeat : BuildRegistry := [("feat:build_android", ⟨"feat", "build_android", []⟩)]

/-- Switch options whose label contains a path separator. -/
def optsSlashLabel : SwitchOptions := ⟨some "a/b", [("app", "feat")], none, [], false, none⟩

/-- Clean options whose label contains a path separator. -/
def cleanOptsSlash : CleanOptions := ⟨"a/b", none, false, false, false⟩

theorem strData_isEmpty_iff (s : String) : s.data.isEmpty = true ↔ s = "" := by
  constructor
  · intro h
    cases s with
    | mk d =>
      cases d with
      | nil => rfl
      | cons a as => simp [List.isEmpty] at h
  · intro h
    subst h
    rfl

/-- C1: for a repository whose worktree path does not exist, whose
branch is not attached to any existing worktree, with `dryRun` false and
all issued git subcommands succeeding: a branch existing neither locally
nor remotely is created from `origin/<base>` (base resolved per-repo
override, then global `base_branch`, then `"master"`), the worktree is
added with `createBranch = false` and upstream is unset, giving
`created_new`; a locally existing branch gives `added_local` (worktree
added, upstream unset); a remote-only branch gives `added_remote` with
tracking of `origin/<branch>`. -/
theorem switchToWorktree_create_outcomes
    (cfg : EtzConfig) (env : GitEnv) (opts : SwitchOptions) (repo : RepoConfig) (branch : String)
    (hbr : resolvedBranch opts repo.name = some branch)
    (hbv : validateBranchName branch = none)
    (hlv : validateLabel (resolvedLabelFolder opts branch) = none)
    (hdry : opts.dryRun = false)
    (hex : env.pathExists (worktreePathFor cfg opts repo.name branch) = false)
    (hconf : env.findWorktreeByBranch repo.base_path branch = none)
    (hfetch : env.fetchErr repo.base_path = none)
    (hcb : env.createBranchErr repo.base_path branch
      ("origin/" ++ resolveBaseBranch opts cfg repo.name) = none)
    (haw : env.addWorktreeErr repo.base_path (worktreePathFor cfg opts repo.name branch)
      branch = none)
    (hawt : env.addWorktreeTrackingErr repo.base_path (worktreePathFor cfg opts repo.name branch)
      branch ("origin/" ++ branch) = none) :
    (env.localBranchExists repo.base_path branch = false →
     env.remoteBranchExists repo.base_path branch = false →
     repoStep cfg opts env repo =
       (⟨repo.name, true,
         "Created new branch " ++ sq branch ++ " from origin/" ++
           resolveBaseBranch opts cfg repo.name ++ " and added worktree",
         .created_new⟩,
        (if env.pathExists (pathDirname (worktreePathFor cfg opts repo.name branch)) then []
         else [Eff.mkdirRecOp (pathDirname (worktreePathFor cfg opts repo.name branch))]) ++
        [Eff.listWorktreesOp repo.base_path, Eff.fetchOp repo.base_path,
         Eff.localBranchCheck repo.base_path branch, Eff.remoteBranchCheck repo.base_path branch,
         Eff.createBranchOp repo.base_path branch
           ("origin/" ++ resolveBaseBranch opts cfg repo.name),
         Eff.addWorktreeOp repo.base_path (worktreePathFor cfg opts repo.name branch) branch false,
         Eff.unsetUpstreamOp (worktreePathFor cfg opts repo.name branch)]))
    ∧ (env.localBranchExists repo.base_path branch = true →
       repoStep cfg opts env repo =
         (⟨repo.name, true, "Added worktree for existing local branch " ++ sq branch,
           .added_local⟩,
          (if env.pathExists (pathDirname (worktreePathFor cfg opts repo.name branch)) then []
           else [Eff.mkdirRecOp (pathDirname (worktreePathFor cfg opts repo.name branch))]) ++
          [Eff.listWorktreesOp repo.base_path, Eff.fetchOp repo.base_path,
           Eff.localBranchCheck repo.base_path branch, Eff.remoteBranchCheck repo.base_path branch,
           Eff.addWorktreeOp repo.base_path (worktreePathFor cfg opts repo.name branch) branch false,
           Eff.unsetUpstreamOp (worktreePathFor cfg opts repo.name branch)]))
    ∧ (env.localBranchExists repo.base_path branch = false →
       env.remoteBranchExists repo.base_path branch = true →
       repoStep cfg opts env repo =
         (⟨repo.name, true,
           "Added worktree and tracking remote branch " ++ sq ("origin/" ++ branch),
           .added_remote⟩,
          (if env.pathExists (pathDirname (worktreePathFor cfg opts repo.name branch)) then []
           else [Eff.mkdirRecOp (pathDirname (worktreePathFor cfg opts repo.name branch))]) ++
          [Eff.listWorktreesOp repo.base_path, Eff.fetchOp repo.base_path,
           Eff.localBranchCheck repo.base_path branch, Eff.remoteBranchCheck repo.base_path branch,
           Eff.addWorktreeTrackingOp repo.base_path (worktreePathFor cfg opts repo.name branch)
             branch ("origin/" ++ branch)]))
    ∧ (∀ b, jsTruthy (assocLookup opts.baseBranchMap repo.name) = some b →
       resolveBaseBranch opts cfg repo.name = b)
    ∧ (jsTruthy (assocLookup opts.baseBranchMap repo.name) = none → cfg.base_branch ≠ "" →
       resolveBaseBranch opts cfg repo.name = cfg.base_branch)
    ∧ (jsTruthy (assocLookup opts.baseBranchMap repo.name) = none → cfg.base_branch = "" →
       resolveBaseBranch opts cfg repo.name = "master") := by
  refine ⟨?_, ?_, ?_, ?_, ?_, ?_⟩
  · intro hl hr
    simp [repoStep, ensureWorktree, hbr, hbv, hlv, hdry, hex, hconf, hfetch, hcb, haw, hl, hr]
  · intro hl
    simp [repoStep, ensureWorktree, hbr, hbv, hlv, hdry, hex, hconf, hfetch, haw, hl]
  · intro hl hr
    simp [repoStep, ensureWorktree, hbr, hbv, hlv, hdry, hex, hconf, hfetch, hawt, hl, hr]
  · intro b hb
    simp [resolveBaseBranch, hb]
  · intro hb hcfg
    have hne : cfg.base_branch.data.isEmpty = false := by
      cases h : cfg.base_branch.data.isEmpty
      · rfl
      · exact absurd ((strData_isEmpty_iff _).mp h) hcfg
    simp [resolveBaseBranch, hb, jsOrS, hne]
  · intro hb hcfg
    simp [resolveBaseBranch, hb, jsOrS, hcfg]

/-- Witness for C1: the `created_new` path at a concrete configuration,
environment and options. -/
theorem switchToWorktree_create_outcomes_witness :
    repoStep cfg1 optsFeat envNone ⟨"app", "/r/app"⟩ =
      (⟨"app", true,
        "Created new branch \x27feat\x27 from origin/main and added worktree",
        .created_new⟩,
       [Eff.mkdirRecOp "/wt/feat",
        Eff.listWorktreesOp "/r/app", Eff.fetchOp "/r/app",
        Eff.localBranchCheck "/r/app" "feat", Eff.remoteBranchCheck "/r/app" "feat",
        Eff.createBranchOp "/r/app" "feat" "origin/main",
        Eff.addWorktreeOp "/r/app" "/wt/feat/app" "feat" false,
        Eff.unsetUpstreamOp "/wt/feat/app"]) := by
  have h := (switchToWorktree_create_outcomes cfg1 envNone optsFeat ⟨"app", "/r/app"⟩ "feat"
    (by decide) (by decide) (by decide) (by decide) (by decide) rfl rfl rfl rfl rfl).1 rfl rfl
  rw [h]
  decide

/-- C4: when the worktree path for a repository already exists on disk,
that repository's result is `already_exists` with `success = true`, and
no git operation is issued for it — re-running create with the same
label and branch is a no-op success. -/
theorem switchToWorktree_already_exists_noop
    (cfg : EtzConfig) (env : GitEnv) (opts : SwitchOptions) (repo : RepoConfig) (branch : String)
    (hbr : resolvedBranch opts repo.name = some branch)
    (hbv : validateBranchName branch = none)
    (hlv : validateLabel (resolvedLabelFolder opts branch) = none)
    (hex : env.pathExists (worktreePathFor cfg opts repo.name branch) = true) :
    repoStep cfg opts env repo =
      (⟨repo.name, true,
        "Worktree already exists at " ++ worktreePathFor cfg opts repo.name branch,
        .already_exists⟩,
       if env.pathExists (pathDirname (worktreePathFor cfg opts repo.name branch)) then []
       else [Eff.mkdirRecOp (pathDirname (worktreePathFor cfg opts repo.name branch))])
    ∧ (repoStep cfg opts env repo).2.filter (fun e => e.isGitOp) = [] := by
  have h1 : repoStep cfg opts env repo =
      (⟨repo.name, true,
        "Worktree already exists at " ++ worktreePathFor cfg opts repo.name branch,
        .already_exists⟩,
       if env.pathExists (pathDirname (worktreePathFor cfg opts repo.name branch)) then []
       else [Eff.mkdirRecOp (pathDirname (worktreePathFor cfg opts repo.name branch))]) := by
    simp [repoStep, ensureWorktree, hbr, hbv, hlv, hex]
  refine ⟨h1, ?_⟩
  rw [h1]
  cases hpd : env.pathExists (pathDirname (worktreePathFor cfg opts repo.name branch)) <;>
    simp [Eff.isGitOp]

/-- Witness for C4: re-running create when `/wt/feat/app` exists yields
`already_exists` and an empty effect trace. -/
theorem switchToWorktree_already_exists_noop_witness :
    repoStep cfg1 optsFeat envAll ⟨"app", "/r/app"⟩ =
      (⟨"app", true, "Worktree already exists at /wt/feat/app", .already_exists⟩, []) := by
  have h := (switchToWorktree_already_exists_noop cfg1 envAll optsFeat ⟨"app", "/r/app"⟩ "feat"
    (by decide) (by decide) (by decide) rfl).1
  rw [h]
  decide

theorem runRepos_results (cfg : EtzConfig) (opts : SwitchOptions) (env : GitEnv)
    (rs : List RepoConfig) :
    (runRepos cfg opts env rs).1 =
      (rs.filter (fun r => !filteredOut opts r)).map (fun r => (repoStep cfg opts env r).1) := by
  induction rs with
  | nil => rfl
  | cons repo rest ih =>
    cases hf : filteredOut opts repo <;>
      simp [runRepos, processRepo, hf, ih, List.filter_cons]

/-- C7: within one create batch the results list has exactly one entry
per configured repository passing the repo filter, in configuration
order, each computed from that repository alone; and a git exception in
one repository's operations (fetch or branch creation) is caught and
converted into a `status = error` result carrying the underlying
`GitOperationError` message for that repository only. -/
theorem switchToWorktree_batch_order_isolation
    (cfg : EtzConfig) (env : GitEnv) (opts : SwitchOptions)
    (hlab : ∀ l, jsTruthy opts.label = some l → validateLabel l = none) :
    (switchToWorktree cfg env opts).1 =
      (cfg.repos.filter (fun r => !filteredOut opts r)).map (fun r => (repoStep cfg opts env r).1)
    ∧ (∀ repo : RepoConfig, ∀ branch details : String,
        resolvedBranch opts repo.name = some branch →
        validateBranchName branch = none →
        validateLabel (resolvedLabelFolder opts branch) = none →
        opts.dryRun = false →
        env.pathExists (worktreePathFor cfg opts repo.name branch) = false →
        env.findWorktreeByBranch repo.base_path branch = none →
        env.fetchErr repo.base_path = some details →
        (repoStep cfg opts env repo).1 =
          ⟨repo.name, false,
           "Failed to create worktree: " ++ gitOpErrorMessage "fetch" details, .error⟩)
    ∧ (∀ repo : RepoConfig, ∀ branch details : String,
        resolvedBranch opts repo.name = some branch →
        validateBranchName branch = none →
        validateLabel (resolvedLabelFolder opts branch) = none →
        opts.dryRun = false →
        env.pathExists (worktreePathFor cfg opts repo.name branch) = false →
        env.findWorktreeByBranch repo.base_path branch = none →
        env.fetchErr repo.base_path = none →
        env.localBranchExists repo.base_path branch = false →
        env.remoteBranchExists repo.base_path branch = false →
        env.createBranchErr repo.base_path branch
          ("origin/" ++ resolveBaseBranch opts cfg repo.name) = some details →
        (repoStep cfg opts env repo).1 =
          ⟨repo.name, false,
           "Failed to create worktree: " ++ gitOpErrorMessage "create-branch" details, .error⟩) := by
  refine ⟨?_, ?_, ?_⟩
  · cases hl : jsTruthy opts.label with
    | none => simp [switchToWorktree, hl, runRepos_results]
    | some l => simp [switchToWorktree, hl, hlab l hl, runRepos_results]
  · intro repo branch details hbr hbv hlv hdry hex hconf hfetch
    simp [repoStep, ensureWorktree, hbr, hbv, hlv, hdry, hex, hconf, hfetch]
  · intro repo branch details hbr hbv hlv hdry hex hconf hfetch hl hr hcb
    simp [repoStep, ensureWorktree, hbr, hbv, hlv, hdry, hex, hconf, hfetch, hl, hr, hcb]

/-- Witness for C7: one-repository batch in configuration order. -/
theorem switchToWorktree_batch_order_isolation_witness :
    (switchToWorktree cfg1 envNone optsFeat).1 =
      [(repoStep cfg1 optsFeat envNone ⟨"app", "/r/app"⟩).1] := by
  have h := (switchToWorktree_batch_order_isolation cfg1 envNone optsFeat
    (by intro l hl; cases hl; decide)).1
  rw [h]
  rfl

/-- Counterexample for C9: with identical inputs, a failing `fetchRepo`
flips the repository's result from `created_new`/`success = true` to
`error`/`success = false` — the fetch failure is not swallowed. -/
theorem ensureWorktree_fetch_not_swallowed_cx :
    (ensureWorktree envFetchFail "app" "/r/app" "/wt/feat/app" "feat" "main" false).1 =
      ⟨"app", false,
       "Failed to create worktree: Git operation \x27fetch\x27 failed: network down",
       .error⟩
    ∧ (ensureWorktree envNone "app" "/r/app" "/wt/feat/app" "feat" "main" false).1 =
      ⟨"app", true,
       "Created new branch \x27feat\x27 from origin/main and added worktree",
       .created_new⟩ := by
  constructor <;> rfl

/-- C9 amended: a `fetchRepo` failure in create is caught by the
per-repository error handler and converted into a `status = error`,
`success = false` result carrying the `GitOperationError` message; no
further git call is issued for that repository. -/
theorem ensureWorktree_fetch_error_reported
    (env : GitEnv) (repoName baseRepoPath worktreePath branch baseBranch details : String)
    (hex : env.pathExists worktreePath = false)
    (hconf : env.findWorktreeByBranch baseRepoPath branch = none)
    (hfetch : env.fetchErr baseRepoPath = some details) :
    ensureWorktree env repoName baseRepoPath worktreePath branch baseBranch false =
      (⟨repoName, false,
        "Failed to create worktree: " ++ gitOpErrorMessage "fetch" details, .error⟩,
       [Eff.listWorktreesOp baseRepoPath, Eff.fetchOp baseRepoPath]) := by
  simp [ensureWorktree, hex, hconf, hfetch]

/-- Witness for the amended C9. -/
theorem ensureWorktree_fetch_error_reported_witness :
    ensureWorktree envFetchFail "app" "/r/app" "/wt/feat/app" "feat" "main" false =
      (⟨"app", false,
        "Failed to create worktree: Git operation \x27fetch\x27 failed: network down",
        .error⟩,
       [Eff.listWorktreesOp "/r/app", Eff.fetchOp "/r/app"]) := by
  have h := ensureWorktree_fetch_error_reported envFetchFail "app" "/r/app" "/wt/feat/app"
    "feat" "main" "network down" rfl rfl rfl
  rw [h]
  rfl

theorem labelViolation_isSome (label : String) (h : labelViolation label = true) :
    (validateLabel label).isSome = true ∧
    (validateNoPathTraversal label "label").isSome = true := by
  simp only [labelViolation, Bool.or_eq_true] at h
  constructor
  · unfold validateLabel
    split
    · rfl
    · split
      · rfl
      · split
        · rfl
        · simp_all [List.isEmpty_iff, trimChars]
  · unfold validateNoPathTraversal
    split
    · rfl
    · split
      · rfl
      · split
        · rfl
        · simp_all [List.isEmpty_iff, trimChars]

/-- Counterexample for C5: an empty label passed to create is not
rejected — `if (options.label)` is falsy for the empty string, so
validation is skipped, the branch name is used as the folder, and git
mutations are performed. -/
theorem create_empty_label_not_rejected_cx :
    (switchToWorktree cfg1 envNone optsEmptyLabel).1 =
      [⟨"app", true, "Created new branch \x27feat\x27 from origin/main and added worktree",
        .created_new⟩]
    ∧ (switchToWorktree cfg1 envNone optsEmptyLabel).2.filter (fun e => e.isGitOp) ≠ [] := by
  constructor
  · rfl
  · decide

/-- C5 amended: a label containing `..`, `/` or `\` or an absolute path
is rejected by both create and clean with a validation-error result
(`status = error`, empty repoName) and an empty effect trace; an empty
label is likewise rejected by clean, but create treats an empty label
option as absent and proceeds to the per-repository loop. -/
theorem switch_clean_label_validation
    (cfg : EtzConfig) (env : GitEnv) (opts : SwitchOptions) (copts : CleanOptions) (label : String)
    (hso : opts.label = some label)
    (hcl : copts.label = label)
    (hviol : labelViolation label = true) :
    (label ≠ "" → ∃ m, validateLabel label = some m ∧
       switchToWorktree cfg env opts = ([⟨"", false, m, .error⟩], []))
    ∧ (∃ m, validateNoPathTraversal label "label" = some m ∧
       clean cfg env copts = ([⟨"", false, m, .error⟩], []))
    ∧ (label = "" → switchToWorktree cfg env opts = runRepos cfg opts env cfg.repos) := by
  refine ⟨?_, ?_, ?_⟩
  · intro hne
    obtain ⟨h1, _⟩ := labelViolation_isSome label hviol
    obtain ⟨m, hm⟩ := Option.isSome_iff_exists.mp h1
    refine ⟨m, hm, ?_⟩
    have hdata : label.data.isEmpty = false := by
      cases hd : label.data.isEmpty
      · rfl
      · exact absurd ((strData_isEmpty_iff _).mp hd) hne
    simp [switchToWorktree, hso, jsTruthy, hdata, hm]
  · obtain ⟨_, h2⟩ := labelViolation_isSome label hviol
    obtain ⟨m, hm⟩ := Option.isSome_iff_exists.mp h2
    refine ⟨m, ?_, ?_⟩
    · rw [← hcl] at hm ⊢
      exact hm
    · rw [← hcl] at hm
      simp [clean, hm]
  · intro he
    subst he
    simp [switchToWorktree, hso, jsTruthy]

/-- Witness for the amended C5: the label `a/b` is rejected by both
create and clean with no side effects. -/
theorem switch_clean_label_validation_witness :
    switchToWorktree cfg1 envNone optsSlashLabel =
      ([⟨"", false, "Invalid label: cannot contain path separators or traversal sequences",
         .error⟩], [])
    ∧ clean cfg1 envNone cleanOptsSlash =
      ([⟨"", false, "Invalid label: cannot contain path separators or traversal sequences",
         .error⟩], []) := by
  obtain ⟨h1, h2, _⟩ := switch_clean_label_validation cfg1 envNone optsSlashLabel cleanOptsSlash
    "a/b" rfl rfl (by decide)
  obtain ⟨m, hm, hsw⟩ := h1 (by decide)
  obtain ⟨m2, hm2, hcln⟩ := h2
  have hmv : validateLabel "a/b" =
      some "Invalid label: cannot contain path separators or traversal sequences" := rfl
  rw [hmv] at hm
  cases hm
  have hmv2 : validateNoPathTraversal "a/b" "label" =
      some "Invalid label: cannot contain path separators or traversal sequences" := rfl
  rw [hmv2] at hm2
  cases hm2
  exact ⟨hsw, hcln⟩

/-- C3: when the normalized label directory is not a strict descendant
of the normalized worktree root, `clean` returns only the security-error
result and performs no filesystem or git mutation, even though the raw
label passed the character validation. -/
theorem clean_security_guard
    (cfg : EtzConfig) (env : GitEnv) (opts : CleanOptions)
    (hv : validateNoPathTraversal opts.label "label" = none)
    (hsec : strStartsWith (pathNormalize (pathJoin cfg.worktrees_dir opts.label))
      (pathNormalize cfg.worktrees_dir ++ "/") = false) :
    clean cfg env opts =
      ([⟨"", false, "Security error: path traversal detected", .error⟩],
       [Eff.killBuildsOp opts.label])
    ∧ (clean cfg env opts).2.filter (fun e => e.isGitOp || e.isFsMutation) = [] := by
  have h1 : clean cfg env opts =
      ([⟨"", false, "Security error: path traversal detected", .error⟩],
       [Eff.killBuildsOp opts.label]) := by
    simp [clean, hv, hsec]
  refine ⟨h1, ?_⟩
  rw [h1]
  simp [Eff.isGitOp, Eff.isFsMutation]

/-- Witness for C3: the label `.` passes character validation but
resolves onto the worktree root itself, so `clean` refuses it. -/
theorem clean_security_guard_witness :
    clean cfg1 envNone cleanOptsDot =
      ([⟨"", false, "Security error: path traversal detected", .error⟩],
       [Eff.killBuildsOp "."]) := by
  exact (clean_security_guard cfg1 envNone cleanOptsDot (by decide) (by decide)).1

/-- C10: a missing label directory makes `clean` return exactly one
`not_found` result with empty repoName and `success = false` (driving
the batch-level AND of successes to false), whereas a per-repository
missing worktree path inside an existing label directory yields
`not_found` with `success = true`. -/
theorem clean_label_dir_missing
    (cfg : EtzConfig) (env : GitEnv) (opts : CleanOptions)
    (hv : validateNoPathTraversal opts.label "label" = none)
    (hsec : strStartsWith (pathNormalize (pathJoin cfg.worktrees_dir opts.label))
      (pathNormalize cfg.worktrees_dir ++ "/") = true)
    (hne : env.pathExists (pathJoin cfg.worktrees_dir opts.label) = false) :
    clean cfg env opts =
      ([⟨"", false, "No worktree directory found at " ++ pathJoin cfg.worktrees_dir opts.label,
         .not_found⟩],
       [Eff.killBuildsOp opts.label])
    ∧ (clean cfg env opts).1.all (fun r => r.success) = false
    ∧ (∀ (env2 : GitEnv) (rn bp wt : String) (f dr db : Bool),
        env2.pathExists wt = false →
        cleanWorktree env2 rn bp wt f dr db =
          (⟨rn, true, "Path not found (already deleted): " ++ wt, .not_found⟩, [])) := by
  have h1 : clean cfg env opts =
      ([⟨"", false, "No worktree directory found at " ++ pathJoin cfg.worktrees_dir opts.label,
         .not_found⟩],
       [Eff.killBuildsOp opts.label]) := by
    simp [clean, hv, hsec, hne]
  refine ⟨h1, ?_, ?_⟩
  · rw [h1]
    rfl
  · intro env2 rn bp wt f dr db h
    simp [cleanWorktree, h]

/-- Witness for C10: cleaning the label `feat` when `/wt/feat` does not
exist. -/
theorem clean_label_dir_missing_witness :
    clean cfg1 envNone cleanOptsFeat =
      ([⟨"", false, "No worktree directory found at /wt/feat", .not_found⟩],
       [Eff.killBuildsOp "feat"]) := by
  have h := (clean_label_dir_missing cfg1 envNone cleanOptsFeat (by decide) (by decide) rfl).1
  rw [h]
  rfl

theorem cleanWorktreeFinish_acc_mem (env : GitEnv) (rn bp wt : String) (db : Bool)
    (bn : Option String) (acc : List Eff) (e : Eff) (he : e ∈ acc) :
    e ∈ (cleanWorktreeFinish env rn bp wt db bn acc).2 := by
  simp only [cleanWorktreeFinish]
  repeat' split
  all_goals simp_all

theorem cleanWorktreeFinish_deleted (env : GitEnv) (rn bp wt : String) (db : Bool)
    (bn : Option String) (acc : List Eff) (hp2 : env.pathExists2 wt = true) :
    (cleanWorktreeFinish env rn bp wt db bn acc).1.status = .deleted
    ∧ (cleanWorktreeFinish env rn bp wt db bn acc).1.success = true
    ∧ Eff.rmRecursiveOp wt ∈ (cleanWorktreeFinish env rn bp wt db bn acc).2 := by
  simp only [cleanWorktreeFinish, hp2]
  repeat' split
  all_goals simp_all

theorem cleanWorktreeFinish_no_rm (env : GitEnv) (rn bp wt : String) (db : Bool)
    (bn : Option String) (acc : List Eff) (hp2 : env.pathExists2 wt = false)
    (hacc : Eff.rmRecursiveOp wt ∉ acc) :
    Eff.rmRecursiveOp wt ∉ (cleanWorktreeFinish env rn bp wt db bn acc).2 := by
  simp only [cleanWorktreeFinish, cleanIOSDerivedData, hp2]
  repeat' split
  all_goals simp_all

/-- Counterexample for C8: with caller-supplied `force = false`, the
`removeWorktree` call recorded in the trace carries `force = true`, not
the caller's flag. -/
theorem cleanWorktree_force_flag_cx :
    ((cleanWorktree envAll "app" "/r/app" "/wt/feat/app" false false false).2.contains
      (Eff.removeWorktreeOp "/r/app" "/wt/feat/app" false) = false)
    ∧ ((cleanWorktree envAll "app" "/r/app" "/wt/feat/app" false false false).2.contains
      (Eff.removeWorktreeOp "/r/app" "/wt/feat/app" true) = true) := by
  decide

/-- C8 amended: during cleanup of a valid worktree, `removeWorktree` is
always invoked with `force = true` regardless of the caller flag; if
that removal fails and the caller's `force` is false, the result is
`status = error` and directory deletion does not proceed; if the
caller's `force` is true, deletion continues regardless. -/
theorem cleanWorktree_remove_failure_handling
    (env : GitEnv) (repoName baseRepoPath worktreePath : String) (force deleteBranches : Bool)
    (hex : env.pathExists worktreePath = true)
    (hwt : worktreeExists env worktreePath = true) :
    Eff.removeWorktreeOp baseRepoPath worktreePath true ∈
      (cleanWorktree env repoName baseRepoPath worktreePath force false deleteBranches).2
    ∧ (∀ details, env.removeWorktreeErr baseRepoPath worktreePath true = some details →
        force = false →
        (cleanWorktree env repoName baseRepoPath worktreePath force false deleteBranches).1 =
          ⟨repoName, false,
           "Failed to remove Git worktree: " ++ gitOpErrorMessage "remove-worktree" details,
           .error⟩
        ∧ Eff.rmRecursiveOp worktreePath ∉
            (cleanWorktree env repoName baseRepoPath worktreePath force false deleteBranches).2)
    ∧ (∀ details, env.removeWorktreeErr baseRepoPath worktreePath true = some details →
        force = true → env.pathExists2 worktreePath = true →
        (cleanWorktree env repoName baseRepoPath worktreePath
          force false deleteBranches).1.status = .deleted
        ∧ Eff.rmRecursiveOp worktreePath ∈
            (cleanWorktree env repoName baseRepoPath worktreePath force false deleteBranches).2) := by
  refine ⟨?_, ?_, ?_⟩
  · rcases hrm : env.removeWorktreeErr baseRepoPath worktreePath true with _ | d
    · simp [cleanWorktree, hex, hwt, hrm]
      exact cleanWorktreeFinish_acc_mem _ _ _ _ _ _ _ _ (by simp)
    · cases force
      · simp [cleanWorktree, hex, hwt, hrm]
      · simp [cleanWorktree, hex, hwt, hrm]
        exact cleanWorktreeFinish_acc_mem _ _ _ _ _ _ _ _ (by simp)
  · intro details hrm hf
    subst hf
    constructor
    · simp [cleanWorktree, hex, hwt, hrm]
    · cases deleteBranches
      · simp [cleanWorktree, hex, hwt, hrm]
      · cases hcb : env.currentBranchRes worktreePath <;>
          simp [cleanWorktree, hex, hwt, hrm, hcb]
  · intro details hrm hf hp2
    subst hf
    cases deleteBranches
    · simp [cleanWorktree, hex, hwt, hrm]
      exact ⟨(cleanWorktreeFinish_deleted _ _ _ _ _ _ _ hp2).1,
        (cleanWorktreeFinish_deleted _ _ _ _ _ _ _ hp2).2.2⟩
    · cases hcb : env.currentBranchRes worktreePath <;>
        simp [cleanWorktree, hex, hwt, hrm, hcb] <;>
          exact ⟨(cleanWorktreeFinish_deleted _ _ _ _ _ _ _ hp2).1,
            (cleanWorktreeFinish_deleted _ _ _ _ _ _ _ hp2).2.2⟩

/-- Witness for the amended C8: a failing removal with caller
`force = false` yields the error result. -/
theorem cleanWorktree_remove_failure_handling_witness :
    (cleanWorktree envRemoveFail "app" "/r/app" "/wt/feat/app" false false false).1 =
      ⟨"app", false,
       "Failed to remove Git worktree: Git operation \x27remove-worktree\x27 failed: locked working tree",
       .error⟩ := by
  exact ((cleanWorktree_remove_failure_handling envRemoveFail "app" "/r/app" "/wt/feat/app"
    false false rfl rfl).2.1 "locked working tree" rfl rfl).1

theorem regHas_eq_false_iff (reg : BuildRegistry) (key : String) :
    regHas reg key = false ↔ key ∉ regKeys reg := by
  constructor
  · intro h hmem
    simp only [regKeys, List.mem_map] at hmem
    obtain ⟨p, hp, hpk⟩ := hmem
    simp only [regHas, List.any_eq_false, decide_eq_true_eq] at h
    exact h p hp hpk
  · intro h
    simp only [regHas, List.any_eq_false, decide_eq_true_eq]
    intro p hp hpk
    exact h (by simp only [regKeys, List.mem_map]; exact ⟨p, hp, hpk⟩)

theorem regHas_regDelete (reg : BuildRegistry) (key : String) :
    regHas (regDelete reg key) key = false := by
  simp [regHas, regDelete, List.mem_filter]

theorem regGet_some_regHas (reg : BuildRegistry) (key : String) (b : ActiveBuild)
    (h : regGet reg key = some b) : regHas reg key = true := by
  simp only [regGet, Option.map_eq_some'] at h
  obtain ⟨p, hp, _⟩ := h
  have hpt := List.find?_some hp
  simp only [regHas, List.any_eq_true]
  exact ⟨p, List.mem_of_find?_eq_some hp, hpt⟩

theorem regKeys_regSet_of_has (reg : BuildRegistry) (key : String) (b : ActiveBuild)
    (h : regHas reg key = true) : regKeys (regSet reg key b) = regKeys reg := by
  simp only [regSet, h, if_true]
  simp only [regKeys, List.map_map]
  apply List.map_congr_left
  intro p hp
  by_cases hpk : p.1 = key
  · simp [hpk]
  · simp [hpk]

theorem regKeys_regSet_of_not_has (reg : BuildRegistry) (key : String) (b : ActiveBuild)
    (h : regHas reg key = false) : regKeys (regSet reg key b) = regKeys reg ++ [key] := by
  simp [regSet, h, regKeys]

theorem regKeys_nodup_buildStep (reg : BuildRegistry) (ev : BuildEv)
    (h : (regKeys reg).Nodup) : (regKeys (buildStep reg ev)).Nodup := by
  cases ev with
  | start l t =>
    rcases hv : validateLabel l with _ | m
    · rcases hh : regHas reg (getBuildKey l t)
      · simp [buildStep, runBuildStart, hv, hh]
        rw [regKeys_regSet_of_not_has _ _ _ hh]
        rw [List.nodup_append]
        refine ⟨h, List.nodup_singleton _, ?_⟩
        intro a ha hak
        simp at hak
        subst hak
        exact (regHas_eq_false_iff _ _).mp hh ha
      · simp [buildStep, runBuildStart, hv, hh, h]
    · simp [buildStep, runBuildStart, hv, h]
  | chunk l t text =>
    rcases hg : regGet reg (getBuildKey l t) with _ | b
    · simp [buildStep, onBuildData, hg, h]
    · simp only [buildStep, onBuildData, hg]
      rw [regKeys_regSet_of_has _ _ _ (regGet_some_regHas _ _ _ hg)]
      exact h
  | close l t =>
    exact List.Nodup.sublist ((List.filter_sublist _).map _) h
  | kill l t =>
    rcases hv : validateLabel l with _ | m
    · rcases hh : regHas reg (getBuildKey l t)
      · simp [buildStep, killBuild, hv, hh, h]
      · simp only [buildStep, killBuild, hv, hh, if_true]
        exact List.Nodup.sublist ((List.filter_sublist _).map _) h
    · simp [buildStep, killBuild, hv, h]

theorem runBuildEvents_keys_nodup (evs : List BuildEv) :
    (regKeys (runBuildEvents evs)).Nodup := by
  suffices h : ∀ reg, (regKeys reg).Nodup →
      (regKeys (List.foldl buildStep reg evs)).Nodup by
    exact h [] (by simp [regKeys])
  induction evs with
  | nil => intro reg h; exact h
  | cons e rest ih => intro reg h; exact ih _ (regKeys_nodup_buildStep _ _ h)

/-- C2: at most one active build per `(label, buildType)` key — the
registry keys stay duplicate-free over every event sequence; a build
request while the key is active is rejected with the
"already in progress" error and leaves the registry unchanged (nothing
is queued); subprocess exit and kill both remove the key; and a request
issued after the key's removal is accepted. -/
theorem build_mutual_exclusion
    (reg : BuildRegistry) (label btype : String)
    (hv : validateLabel label = none) :
    (regHas reg (getBuildKey label btype) = true →
       runBuildStart reg label btype = .error (btype ++ " already in progress")
       ∧ buildStep reg (.start label btype) = reg)
    ∧ (regHas reg (getBuildKey label btype) = false →
       runBuildStart reg label btype =
         .ok (reg ++ [(getBuildKey label btype, ⟨label, btype, []⟩)]))
    ∧ regHas (onBuildClose reg (getBuildKey label btype)) (getBuildKey label btype) = false
    ∧ regHas ((killBuild reg label btype).1) (getBuildKey label btype) = false
    ∧ runBuildStart (onBuildClose reg (getBuildKey label btype)) label btype =
        .ok (onBuildClose reg (getBuildKey label btype) ++
          [(getBuildKey label btype, ⟨label, btype, []⟩)])
    ∧ (∀ evs, (regKeys (runBuildEvents evs)).Nodup) := by
  refine ⟨?_, ?_, ?_, ?_, ?_, ?_⟩
  · intro hh
    constructor
    · simp [runBuildStart, hv, hh]
    · simp [buildStep, runBuildStart, hv, hh]
  · intro hh
    simp [runBuildStart, hv, hh, regSet]
  · exact regHas_regDelete _ _
  · rcases hh : regHas reg (getBuildKey label btype)
    · simp [killBuild, hv, hh]
    · simp only [killBuild, hv, hh, if_true]
      exact regHas_regDelete _ _
  · simp [runBuildStart, hv, regHas_regDelete, regSet, onBuildClose]
  · exact runBuildEvents_keys_nodup

/-- Witness for C2: a second android build for `feat` is rejected while
one is active, and accepted once the first one's key is removed. -/
theorem build_mutual_exclusion_witness :
    runBuildStart regFeat "feat" "build_android" =
      .error "build_android already in progress"
    ∧ runBuildStart (onBuildClose regFeat "feat:build_android") "feat" "build_android" =
      .ok [("feat:build_android", ⟨"feat", "build_android", []⟩)] := by
  have h := build_mutual_exclusion regFeat "feat" "build_android" (by decide)
  refine ⟨(h.1 (by decide)).1, ?_⟩
  have h5 := h.2.2.2.2.1
  rw [show ("feat:build_android" : String) = getBuildKey "feat" "build_android" from rfl, h5]
  rfl

theorem appendToBuffer_length_le (buf lines : List String) :
    (appendToBuffer buf lines).length ≤ MAX_OUTPUT_BUFFER_SIZE := by
  simp only [appendToBuffer]
  split
  · rename_i h
    rw [List.length_drop, Nat.sub_sub_self (Nat.le_of_lt h)]
  · rename_i h
    exact Nat.le_of_not_lt h

theorem appendToBuffer_eq_lastN (buf lines : List String) :
    appendToBuffer buf lines = lastN MAX_OUTPUT_BUFFER_SIZE (buf ++ lines) := by
  simp only [appendToBuffer, lastN]
  split
  · rfl
  · rename_i h
    rw [Nat.sub_eq_zero_of_le (Nat.le_of_not_lt h), List.drop_zero]

theorem lastN_append_lastN (n : Nat) (xs ys : List String) :
    lastN n (lastN n xs ++ ys) = lastN n (xs ++ ys) := by
  by_cases h : xs.length ≤ n
  · simp [lastN, Nat.sub_eq_zero_of_le h]
  · push_neg at h
    unfold lastN
    have e1 : xs.drop (xs.length - n) ++ ys = (xs ++ ys).drop (xs.length - n) :=
      (List.drop_append_of_le_length (by omega)).symm
    rw [e1, List.drop_drop]
    congr 1
    simp only [List.length_drop, List.length_append]
    omega

theorem foldl_appendToBuffer (chunks : List String) (xs : List String) :
    List.foldl (fun b c => appendToBuffer b (chunkLines c)) (lastN MAX_OUTPUT_BUFFER_SIZE xs)
      chunks =
    lastN MAX_OUTPUT_BUFFER_SIZE (xs ++ (chunks.map chunkLines).join) := by
  induction chunks generalizing xs with
  | nil => simp
  | cons c cs ih =>
    simp only [List.foldl_cons, List.map_cons, List.join]
    rw [appendToBuffer_eq_lastN, lastN_append_lastN, ih (xs ++ chunkLines c)]
    simp [List.append_assoc]

theorem bufBound_buildStep (reg : BuildRegistry) (ev : BuildEv) (h : BufBound reg) :
    BufBound (buildStep reg ev) := by
  have hset : ∀ key b, b.outputBuffer.length ≤ MAX_OUTPUT_BUFFER_SIZE →
      BufBound (regSet reg key b) := by
    intro key b hb p hp
    unfold regSet at hp
    split at hp
    · rw [List.mem_map] at hp
      obtain ⟨q, hq, rfl⟩ := hp
      by_cases hqk : q.1 = key
      · simp [hqk, hb]
      · simpa [hqk] using h q hq
    · rcases List.mem_append.mp hp with hq | hq
      · exact h p hq
      · rw [List.mem_singleton] at hq
        subst hq
        exact hb
  have hdel : ∀ key, BufBound (regDelete reg key) := by
    intro key p hp
    exact h p (List.mem_filter.mp hp).1
  cases ev with
  | start l t =>
    rcases hv : validateLabel l with _ | m
    · rcases hh : regHas reg (getBuildKey l t)
      · simp only [buildStep, runBuildStart, hv, hh]
        simpa using hset (getBuildKey l t) ⟨l, t, []⟩ (by simp)
      · simpa [buildStep, runBuildStart, hv, hh] using h
    · simpa [buildStep, runBuildStart, hv] using h
  | chunk l t text =>
    rcases hg : regGet reg (getBuildKey l t) with _ | b
    · simpa [buildStep, onBuildData, hg] using h
    · simp only [buildStep, onBuildData, hg]
      exact hset (getBuildKey l t) _ (appendToBuffer_length_le _ _)
  | close l t => exact hdel _
  | kill l t =>
    rcases hv : validateLabel l with _ | m
    · rcases hh : regHas reg (getBuildKey l t)
      · simpa [buildStep, killBuild, hv, hh] using h
      · simp only [buildStep, killBuild, hv, hh, if_true]
        exact hdel _
    · simpa [buildStep, killBuild, hv] using h

theorem bufBound_runBuildEvents (evs : List BuildEv) : BufBound (runBuildEvents evs) := by
  suffices h : ∀ reg, BufBound reg → BufBound (List.foldl buildStep reg evs) by
    exact h [] (by intro p hp; simp at hp)
  induction evs with
  | nil => intro reg h; exact h
  | cons e rest ih => intro reg h; exact ih _ (bufBound_buildStep _ _ h)

theorem getBuildOutput_length_le (reg : BuildRegistry) (h : BufBound reg)
    (label : String) (btype : Option String) :
    (getBuildOutput reg label btype).length ≤ MAX_OUTPUT_BUFFER_SIZE := by
  unfold getBuildOutput
  rcases hv : validateLabel label with _ | m
  · rcases btype with _ | t
    · rcases hf : reg.find? (fun p => strStartsWith p.1 (label ++ ":")) with _ | p
      · simp [hf]
      · simpa [hf] using h p (List.mem_of_find?_eq_some hf)
    · rcases hg : regGet reg (getBuildKey label t) with _ | b
      · simp [hg]
      · simp only [hg]
        simp only [regGet, Option.map_eq_some'] at hg
        obtain ⟨p, hp, hpb⟩ := hg
        subst hpb
        exact h p (List.mem_of_find?_eq_some hp)
  · simp

theorem onBuildData_single (l t text : String) (buf : List String) :
    onBuildData [(getBuildKey l t, ⟨l, t, buf⟩)] (getBuildKey l t) text =
      [(getBuildKey l t, ⟨l, t, appendToBuffer buf (chunkLines text)⟩)] := by
  simp [onBuildData, regGet, regSet, regHas]

theorem runChunks_single (l t : String) (chunks : List String) (buf : List String) :
    List.foldl buildStep [(getBuildKey l t, ⟨l, t, buf⟩)]
      (chunks.map (BuildEv.chunk l t)) =
    [(getBuildKey l t,
      ⟨l, t, List.foldl (fun b c => appendToBuffer b (chunkLines c)) buf chunks⟩)] := by
  induction chunks generalizing buf with
  | nil => rfl
  | cons c cs ih =>
    simp only [List.map_cons, List.foldl_cons, buildStep, onBuildData_single]
    exact ih _

/-- C6: over every event sequence every build's buffered output holds at
most 500 lines; and a build that has received chunks `cs` after
starting buffers exactly the most recent 500 of all emitted lines
(oldest evicted first), which is what `getBuildOutput` returns. -/
theorem build_output_buffer_bounded :
    (∀ (evs : List BuildEv) (label : String) (btype : Option String),
      (getBuildOutput (runBuildEvents evs) label btype).length ≤ MAX_OUTPUT_BUFFER_SIZE)
    ∧ (∀ label btype : String, ∀ chunks : List String, validateLabel label = none →
        getBuildOutput
          (runBuildEvents (BuildEv.start label btype :: chunks.map (BuildEv.chunk label btype)))
          label (some btype) =
        lastN MAX_OUTPUT_BUFFER_SIZE ((chunks.map chunkLines).join)) := by
  constructor
  · intro evs label btype
    exact getBuildOutput_length_le _ (bufBound_runBuildEvents evs) label btype
  · intro label btype chunks hv
    have hstart : buildStep [] (BuildEv.start label btype) =
        [(getBuildKey label btype, ⟨label, btype, []⟩)] := by
      simp [buildStep, runBuildStart, hv, regHas, regSet]
    have hrun : runBuildEvents
        (BuildEv.start label btype :: chunks.map (BuildEv.chunk label btype)) =
        [(getBuildKey label btype,
          ⟨label, btype,
           List.foldl (fun b c => appendToBuffer b (chunkLines c)) [] chunks⟩)] := by
      unfold runBuildEvents
      rw [List.foldl_cons, hstart, runChunks_single]
    rw [hrun]
    have hout : getBuildOutput
        [(getBuildKey label btype,
          ⟨label, btype, List.foldl (fun b c => appendToBuffer b (chunkLines c)) [] chunks⟩)]
        label (some btype) =
        List.foldl (fun b c => appendToBuffer b (chunkLines c)) [] chunks := by
      simp [getBuildOutput, hv, regGet]
    rw [hout]
    simpa only [List.nil_append] using foldl_appendToBuffer chunks []

/-- Witness for C6: a build for `feat` receiving two chunks buffers
exactly the emitted lines (fewer than 500, so nothing is evicted). -/
theorem build_output_buffer_bounded_witness :
    getBuildOutput
      (runBuildEvents (BuildEv.start "feat" "pod_install" ::
        List.map (BuildEv.chunk "feat" "pod_install") ["l1\nl2", "l3"]))
      "feat" (some "pod_install") = ["l1", "l2", "l3"] := by
  have h := build_output_buffer_bounded.2 "feat" "pod_install" ["l1\nl2", "l3"] (by decide)
  exact h.trans (by decide)

end Etz
